import Mathlib

/-
Verification of a Redux-style state container (sources: src/compose.js and
the concatenated module file src/combineReducers.js, which contains
combineReducers, createStore, applyMiddleware and bindActionCreators).

Modelling conventions for the shallow embedding:
* JS values that flow through reducers are an abstract type `V` with
  decidable equality; equality on `V` models JS reference equality (`===`),
  since the code only ever compares slices by reference.
* A JS state object is an association list `List (String × V)`; `state[key]`
  is `List.lookup`, which yields `none` for a missing key (JS `undefined`).
* A fallible JS value (possibly `undefined`) is an `Option`; a JS function
  that can throw returns `Except String` carrying the error message.
* Dispatched actions are plain objects with an optional `type` field, or a
  non-plain value (`notPlain`), mirroring the two validation checks of
  `dispatch`.
* The mutable listener arrays of createStore (`currentListeners`,
  `nextListeners`) are modelled by an explicit heap of array references
  (`heap : Nat → List Nat` plus `currentRef`/`nextRef`/`fresh`), so that the
  aliasing tested by `ensureCanMutateNextListeners`
  (`nextListeners === currentListeners`) and the copy-on-write it performs
  are represented faithfully.  Listeners are identified by `Nat` ids; what a
  listener does when invoked is an environment `eff` mapping its id to the
  subscribe/unsubscribe calls its body performs.
* The JS `for` loop over the listener array re-reads the array from the heap
  on every iteration; it is modelled with explicit fuel (`notifyLoop`).
-/

namespace Redux

/-- A dispatched JS action: either a plain object with an optional `type`
field (absent field = JS `undefined`), or a non-plain value. -/
inductive JsAction where
  | obj (type? : Option String)
  | notPlain
deriving DecidableEq

/-- `ActionTypes.INIT` from createStore. -/
def ActionTypesINIT : String := "@@redux/INIT"

/-- The private initialization action `{ type: ActionTypes.INIT }`. -/
def initAction : JsAction := JsAction.obj (some ActionTypesINIT)

/-- A sub-reducer passed to combineReducers: takes a possibly-undefined
previous state slice and an action, and returns a possibly-undefined next
slice. -/
abbrev SubReducer (V : Type) := Option V → JsAction → Option V

/-- A JS state object: an association list of key/value bindings. -/
abbrev JsObj (V : Type) := List (String × V)

/-- `actionName` computed inside getUndefinedStateErrorMessage:
`actionType && quoted-type || the fallback text an action` (an empty-string type is falsy in JS,
as is a missing one). -/
def actionName : JsAction → String
  | JsAction.obj (some t) => if t = "" then "an action" else "\"" ++ t ++ "\""
  | _ => "an action"

/-- getUndefinedStateErrorMessage from combineReducers.js. -/
def getUndefinedStateErrorMessage (key : String) (action : JsAction) : String :=
  "Given action " ++ actionName action ++ ", reducer \"" ++ key ++
    "\" returned undefined. To ignore an action, you must explicitly return the previous state."

/-- Error thrown by assertReducerSanity when a reducer returns undefined for
the INIT action. -/
def initializationErrorMessage (key : String) : String :=
  "Reducer \"" ++ key ++
    "\" returned undefined during initialization. If the state passed to the reducer is undefined, you must explicitly return the initial state. The initial state may not be undefined."

/-- Error thrown by assertReducerSanity when a reducer returns undefined for
a random probe action. -/
def probeErrorMessage (key : String) : String :=
  "Reducer \"" ++ key ++
    "\" returned undefined when probed with a random type. Don\x27t try to handle " ++
    ActionTypesINIT ++
    " or other actions in \"redux/*\" namespace. They are considered private. Instead, you must return the current state for any unknown actions, unless it is undefined, in which case you must return the initial state, regardless of the action type. The initial state may not be undefined."

/-- assertReducerSanity: probes each reducer with `(undefined, INIT)` and
then with `(undefined, a random probe type)`.  The
random suffix is drawn afresh for every key; it is supplied here as the
parameter `probes` indexed by key position.  The source throws at the first
failing key; here the first error is returned as `some`. -/
def assertReducerSanity {V : Type} (probes : Nat → String) :
    Nat → List (String × SubReducer V) → Option String
  | _, [] => none
  | i, (key, reducer) :: rest =>
    match reducer none (JsAction.obj (some ActionTypesINIT)) with
    | none => some (initializationErrorMessage key)
    | some _ =>
      match reducer none
          (JsAction.obj (some ("@@redux/PROBE_UNKNOWN_ACTION_" ++ probes i))) with
      | none => some (probeErrorMessage key)
      | some _ => assertReducerSanity probes (i + 1) rest

/-- The value returned by combineReducers: the captured sanity error (JS
`sanityError`, caught by the try/catch around assertReducerSanity) together
with the retained reducers, closed over by the `combination` function. -/
structure CombinedReducer (V : Type) where
  sanityError : Option String
  finalReducers : List (String × SubReducer V)

/-- combineReducers.  The source first filters out keys whose values are not
functions (warning in development builds); here the input is already typed
as reducers, so `finalReducers` is the input itself.  The try/catch around
assertReducerSanity is the `sanityError` field: composition never throws,
the error is only captured. -/
def combineReducers {V : Type} (probes : Nat → String)
    (reducers : List (String × SubReducer V)) : CombinedReducer V :=
  { sanityError := assertReducerSanity probes 0 reducers
    finalReducers := reducers }

/-- The per-key loop of `combination`: iterates the retained keys in order,
accumulating `nextState` (`acc`) and `hasChanged`; throws
getUndefinedStateErrorMessage at the first absent sub-result; at the end
returns `nextState` if `hasChanged`, else the original `state`. -/
def combinationLoop {V : Type} [DecidableEq V] (st : JsObj V) (action : JsAction) :
    List (String × SubReducer V) → JsObj V → Bool → Except String (JsObj V)
  | [], acc, hasChanged => Except.ok (if hasChanged then acc else st)
  | (key, reducer) :: rest, acc, hasChanged =>
    match reducer (List.lookup key st) action with
    | none => Except.error (getUndefinedStateErrorMessage key action)
    | some nextStateForKey =>
      combinationLoop st action rest (acc ++ [(key, nextStateForKey)])
        (hasChanged || decide (some nextStateForKey ≠ List.lookup key st))

/-- The `combination` function returned by combineReducers.  `state` is
`none` when the caller passes `undefined`, in which case the default
parameter `state = {}` applies.  A captured sanity error is re-raised on
every invocation. -/
def combination {V : Type} [DecidableEq V] (cr : CombinedReducer V)
    (state : Option (JsObj V)) (action : JsAction) : Except String (JsObj V) :=
  match cr.sanityError with
  | some e => Except.error e
  | none => combinationLoop (state.getD []) action cr.finalReducers [] false

/-- The freshly built `nextState` object accumulated by a full pass of the
combination loop: every retained key bound to its (present) sub-result. -/
def subResults {V : Type} (rs : List (String × SubReducer V)) (st : JsObj V)
    (action : JsAction) : JsObj V :=
  rs.filterMap (fun p => (p.2 (List.lookup p.1 st) action).map (fun v => (p.1, v)))

/-- compose from compose.js: zero functions yield the identity, one function
is returned unchanged, otherwise the rest are folded right-to-left
(`reduceRight`) over the last function applied to the argument. -/
def compose {α : Type} (funcs : List (α → α)) : α → α :=
  match funcs with
  | [] => fun arg => arg
  | [f] => f
  | funcs => fun args =>
      funcs.dropLast.foldr (fun f composed => f composed)
        ((funcs.getLastD (fun arg => arg)) args)

/-- The store state owned by one createStore closure.  `reducerId : ρ` names
the current reducer (`currentReducer`); its meaning is given by a
`ReducerEnv` environment, which lets `replaceReducer` swap reducers and lets
a reducer body be a closure over the store (it receives the in-flight store
as an argument).  The listener arrays live in `heap`; `currentRef` and
`nextRef` are the array references held by `currentListeners` and
`nextListeners`, and `fresh` is the next unused reference (every allocated
reference is `< fresh`). -/
structure StoreCore (S ρ : Type) where
  currentState : Option S
  reducerId : ρ
  heap : Nat → List Nat
  currentRef : Nat
  nextRef : Nat
  fresh : Nat
  isDispatching : Bool

/-- Interpretation of reducer names: the reducer body receives the store it
is closed over (with `isDispatching` already set by dispatch), the current
state and the action, and returns the next state or throws. -/
abbrev ReducerEnv (S ρ : Type) :=
  ρ → StoreCore S ρ → Option S → JsAction → Except String S

/-- A call a listener body can make on its store while being notified. -/
inductive ListenerCmd where
  | sub (l : Nat)
  | unsub (l : Nat)
deriving DecidableEq

/-- ensureCanMutateNextListeners: if `nextListeners` is still the same array
object as `currentListeners`, replace it by a slice (a fresh array with the
same contents). -/
def ensureCanMutateNextListeners {S ρ : Type} (st : StoreCore S ρ) : StoreCore S ρ :=
  if st.nextRef = st.currentRef then
    { st with
      heap := Function.update st.heap st.fresh (st.heap st.currentRef)
      nextRef := st.fresh
      fresh := st.fresh + 1 }
  else st

/-- The body of `subscribe`: ensure `nextListeners` is mutable, then push the
listener onto it.  (The returned unsubscribe closure is `unsubscribeListener`
below, whose `isSubscribed` flag starts as `true`.) -/
def subscribeListener {S ρ : Type} (st : StoreCore S ρ) (l : Nat) : StoreCore S ρ :=
  let st1 := ensureCanMutateNextListeners st
  { st1 with
    heap := Function.update st1.heap st1.nextRef (st1.heap st1.nextRef ++ [l]) }

/-- JS `Array.prototype.indexOf`: position of the first occurrence, or -1. -/
def jsIndexOf (xs : List Nat) (l : Nat) : Int :=
  match xs with
  | [] => -1
  | x :: rest =>
    if x = l then 0
    else
      let r := jsIndexOf rest l
      if r < 0 then -1 else r + 1

/-- JS `Array.prototype.splice(start, 1)`: a negative `start` counts from the
end (clamped at 0), a too-large one is clamped to the length; one element at
the resulting position is removed. -/
def jsSplice1 (xs : List Nat) (start : Int) : List Nat :=
  let len := xs.length
  let s : Nat := if start < 0 then ((len : Int) + start).toNat else min start.toNat len
  xs.take s ++ xs.drop (s + 1)

/-- The unsubscribe closure returned by `subscribe`, acting on its own
`isSubscribed` flag and the store: a second call returns immediately; the
first call clears the flag, ensures `nextListeners` is mutable and splices
out the listener at its `indexOf` position. -/
def unsubscribeListener {S ρ : Type} (l : Nat) :
    Bool × StoreCore S ρ → Bool × StoreCore S ρ
  | (isSubscribed, st) =>
    if !isSubscribed then (isSubscribed, st)
    else
      let st1 := ensureCanMutateNextListeners st
      let xs := st1.heap st1.nextRef
      (false,
        { st1 with
          heap := Function.update st1.heap st1.nextRef (jsSplice1 xs (jsIndexOf xs l)) })

/-- Effect of one call made by a listener body: `sub` is a `subscribe` call,
`unsub` the first call of an unsubscribe closure for a still-subscribed
listener. -/
def runCmd {S ρ : Type} (st : StoreCore S ρ) : ListenerCmd → StoreCore S ρ
  | ListenerCmd.sub l => subscribeListener st l
  | ListenerCmd.unsub l => (unsubscribeListener l (true, st)).2

/-- All calls made by one listener body, in order. -/
def runCmds {S ρ : Type} (st : StoreCore S ρ) (cs : List ListenerCmd) : StoreCore S ρ :=
  cs.foldl runCmd st

/-- The value-level meaning of one listener call on the `nextListeners`
array: subscribe pushes, unsubscribe splices out the first occurrence. -/
def applyCmdPure (xs : List Nat) : ListenerCmd → List Nat
  | ListenerCmd.sub l => xs ++ [l]
  | ListenerCmd.unsub l => jsSplice1 xs (jsIndexOf xs l)

/-- The listener calls performed while notifying the listeners `ls` in
order, under the behaviour environment `eff`. -/
def effCmds (eff : Nat → List ListenerCmd) (ls : List Nat) : List ListenerCmd :=
  (ls.map eff).flatten

/-- The notification loop of dispatch:
`for (var i = 0; i < listeners.length; i++) { listeners[i]() }`, where
`listeners` is the array at reference `lref` and the condition re-reads the
array from the heap each iteration.  Returns the updated store and the list
of listener invocations in order; `none` only on fuel exhaustion. -/
def notifyLoop {S ρ : Type} (eff : Nat → List ListenerCmd) :
    Nat → StoreCore S ρ → Nat → Nat → Option (StoreCore S ρ × List Nat)
  | 0, _, _, _ => none
  | fuel + 1, st, lref, i =>
    match (st.heap lref)[i]? with
    | none => some (st, [])
    | some l =>
      match notifyLoop eff fuel (runCmds st (eff l)) lref (i + 1) with
      | some (st', log) => some (st', l :: log)
      | none => none

/-- Error message for non-plain actions. -/
def plainObjectErrorMessage : String :=
  "Actions must be plain objects. Use custom middleware for async actions."

/-- Error message for actions without a defined `type`. -/
def undefinedTypeErrorMessage : String :=
  "Actions may not have an undefined \"type\" property. Have you misspelled a constant?"

/-- Error message for reentrant dispatch. -/
def reentrancyErrorMessage : String := "Reducers may not dispatch actions."

/-- dispatch from createStore.  Validates the action (plain object, defined
`type`), rejects reentrant calls, sets `isDispatching`, runs the current
reducer and clears the flag on every exit path (the try/finally), then
freezes `currentListeners = nextListeners` and notifies every listener of
that snapshot in order.  Returns the resulting store, the invocation log of
the notification pass, and the dispatched action (or the thrown error). -/
def dispatch {S ρ : Type} (env : ReducerEnv S ρ) (eff : Nat → List ListenerCmd)
    (fuel : Nat) (st : StoreCore S ρ) (action : JsAction) :
    Option (StoreCore S ρ × List Nat × Except String JsAction) :=
  match action with
  | JsAction.notPlain => some (st, [], Except.error plainObjectErrorMessage)
  | JsAction.obj none => some (st, [], Except.error undefinedTypeErrorMessage)
  | JsAction.obj (some t) =>
    if st.isDispatching then some (st, [], Except.error reentrancyErrorMessage)
    else
      let st1 := { st with isDispatching := true }
      match env st1.reducerId st1 st1.currentState (JsAction.obj (some t)) with
      | Except.error e => some ({ st1 with isDispatching := false }, [], Except.error e)
      | Except.ok s' =>
        let st2 := { st1 with currentState := some s', isDispatching := false }
        let lref := st2.nextRef
        let st3 := { st2 with currentRef := st2.nextRef }
        match notifyLoop eff fuel st3 lref 0 with
        | none => none
        | some (st4, log) => some (st4, log, Except.ok (JsAction.obj (some t)))

/-- replaceReducer: swap `currentReducer` and immediately dispatch the
private INIT action (the nextReducer-must-be-a-function check is enforced by
typing here). -/
def replaceReducer {S ρ : Type} (env : ReducerEnv S ρ) (eff : Nat → List ListenerCmd)
    (fuel : Nat) (st : StoreCore S ρ) (nextReducer : ρ) :
    Option (StoreCore S ρ × List Nat × Except String JsAction) :=
  dispatch env eff fuel { st with reducerId := nextReducer } initAction

/-- The reducer environment induced by a combineReducers result: the store
state type is a JS object and every reducer name is a CombinedReducer whose
`combination` function is run on the current state and action (the store
closure argument is unused by `combination`). -/
def combinedReducerEnv {V : Type} [DecidableEq V] :
    ReducerEnv (JsObj V) (CombinedReducer V) :=
  fun cr _ state action => combination cr state action

/-- A positional argument of createStore: JS `undefined`, a non-function
value, or a function (an enhancer). -/
inductive JsArg (S E : Type) where
  | undef
  | value (s : S)
  | func (e : E)

/-- What createStore produces: either the delegated call
`enhancer(createStore)(reducer, preloadedState)` (recorded with its exact
arguments), or the plain store built directly. -/
inductive CreateStoreOutcome (S ρ E : Type) where
  | enhanced (enhancer : E) (reducer : ρ) (preloadedState : JsArg S E)
  | store (st : StoreCore S ρ)

/-- The state carried by a preloadedState argument (`undefined` otherwise). -/
def stateOfArg {S E : Type} : JsArg S E → Option S
  | JsArg.value s => some s
  | _ => none

/-- Error message for a non-function enhancer. -/
def enhancerTypeErrorMessage : String := "Expected the enhancer to be a function."

/-- createStore: if preloadedState is a function and enhancer is undefined,
the two are swapped; a present enhancer must be a function and construction
delegates to `enhancer(createStore)(reducer, preloadedState)` (recorded as
`CreateStoreOutcome.enhanced`); otherwise the plain store is built (reducer
is a function by typing) and the INIT action is dispatched once before the
store is returned. -/
def createStore {S ρ E : Type} (env : ReducerEnv S ρ) (eff : Nat → List ListenerCmd)
    (fuel : Nat) (reducer : ρ) (preloadedState enhancer : JsArg S E) :
    Option (Except String (CreateStoreOutcome S ρ E)) :=
  let pe : JsArg S E × JsArg S E :=
    match preloadedState, enhancer with
    | JsArg.func e, JsArg.undef => (JsArg.undef, JsArg.func e)
    | p, e => (p, e)
  match pe.2 with
  | JsArg.func e => some (Except.ok (CreateStoreOutcome.enhanced e reducer pe.1))
  | JsArg.value _ => some (Except.error enhancerTypeErrorMessage)
  | JsArg.undef =>
    let st0 : StoreCore S ρ :=
      { currentState := stateOfArg pe.1
        reducerId := reducer
        heap := fun _ => []
        currentRef := 0
        nextRef := 0
        fresh := 1
        isDispatching := false }
    match dispatch env eff fuel st0 initAction with
    | none => none
    | some (st1, _, Except.ok _) => some (Except.ok (CreateStoreOutcome.store st1))
    | some (_, _, Except.error msg) => some (Except.error msg)

/-- A reducer body that calls the store's `dispatch` (with action `a2`) from
inside its own execution, propagating the thrown error; if the inner
dispatch were to succeed, the body would return the previous state (or the
default `d`). -/
def dispatchingReducerEnv {S ρ : Type} (env' : ReducerEnv S ρ)
    (eff' : Nat → List ListenerCmd) (fuel' : Nat) (a2 : JsAction) (d : S) :
    ReducerEnv S ρ :=
  fun _ stM s _ =>
    match dispatch env' eff' fuel' stM a2 with
    | some (_, _, Except.error e) => Except.error e
    | _ => Except.ok (s.getD d)

/-- The raw store interface built by createStore, as seen by applyMiddleware:
`dispatch` is a function from actions to results, the other operations are
abstract. -/
structure RawStore (S A R Sb Rp : Type) where
  getState : Unit → S
  dispatch : A → R
  subscribe : Sb
  replaceReducer : Rp

/-- The `middlewareAPI` object handed to every middleware. -/
structure MiddlewareAPI (S A R : Type) where
  getState : Unit → S
  dispatch : A → R

/-- A middleware: given the API, maps the next dispatch to a new dispatch. -/
abbrev Middleware (S A R : Type) := MiddlewareAPI S A R → (A → R) → (A → R)

/-- The mutable `dispatch` variable of applyMiddleware as read through the
wrapper `(action) => dispatch(action)` of the middleware API.  After setup
the variable holds `compose(...chain)(store.dispatch)`, whose chain is built
from an API reading the same variable; this knot is unrolled explicitly:
depth 0 is the variable's initial value `store.dispatch`, depth n+1 the
composed dispatch whose API forwards at depth n. -/
def middlewareDispatchVar {S A R : Type} (mws : List (Middleware S A R))
    (getSt : Unit → S) (raw : A → R) : Nat → A → R
  | 0 => raw
  | n + 1 =>
    compose
      (mws.map (fun mw =>
        mw ⟨getSt, fun action => middlewareDispatchVar mws getSt raw n action⟩))
      raw

/-- The `middlewareAPI` built by applyMiddleware for a given raw store:
`getState` is the store's, `dispatch` the forwarding wrapper over the
mutable variable (at unrolling depth `fuel`). -/
def middlewareAPI {S A R Sb Rp : Type} (mws : List (Middleware S A R)) (fuel : Nat)
    (store : RawStore S A R Sb Rp) : MiddlewareAPI S A R :=
  ⟨store.getState, fun action => middlewareDispatchVar mws store.getState store.dispatch fuel action⟩

/-- applyMiddleware: builds the raw store, maps every middleware over the
API to obtain the chain, composes the chain over the raw dispatch, and
returns the store spread with only `dispatch` replaced. -/
def applyMiddleware {S A R Sb Rp Rd P En : Type} (mws : List (Middleware S A R))
    (fuel : Nat) (createStoreArg : Rd → P → En → RawStore S A R Sb Rp)
    (reducer : Rd) (preloadedState : P) (enhancer : En) : RawStore S A R Sb Rp :=
  let store := createStoreArg reducer preloadedState enhancer
  let chain := mws.map (fun mw => mw (middlewareAPI mws fuel store))
  { store with dispatch := compose chain store.dispatch }

/-- Well-formedness of a store's listener heap: the references held by
`currentListeners` and `nextListeners` were allocated (they are below the
allocation counter).  True of every store built by createStore and preserved
by every operation. -/
def StoreWf {S ρ : Type} (st : StoreCore S ρ) : Prop :=
  st.currentRef < st.fresh ∧ st.nextRef < st.fresh

/-- Invariant maintained across the notification pass of a dispatch whose
snapshot is the array at `lref` with contents `L0`: `currentListeners` still
aliases the snapshot, the snapshot array is untouched, and all held
references were allocated. -/
def NotifyInv {S ρ : Type} (lref : Nat) (L0 : List Nat) (st : StoreCore S ρ) : Prop :=
  st.currentRef = lref ∧ st.heap lref = L0 ∧ lref < st.fresh ∧ st.nextRef < st.fresh

/-! ### Concrete instances used by the witness and counterexample theorems -/

/-- A mapping with a single reducer that has no default state: it returns
undefined for every call, so it fails the first sanity probe. -/
def wReducersBad : List (String × SubReducer Nat) := [("k", fun _ _ => none)]

/-- A well-behaved identity-style sub-reducer with default slice 0. -/
def wReducerId : SubReducer Nat := fun s _ => some (s.getD 0)

/-- A single-key composition over the identity-style reducer. -/
def wCrA : CombinedReducer Nat := combineReducers (fun _ => "p") [("a", wReducerId)]

/-- A sub-reducer that passes both sanity probes but returns undefined for
the action type `bad`. -/
def wReducerBadAction : SubReducer Nat := fun s a =>
  match a with
  | JsAction.obj (some t) => if t = "bad" then none else some (s.getD 0)
  | _ => some (s.getD 0)

/-- A single-key composition over `wReducerBadAction`; its sanity error is
`none`. -/
def wCrBadAction : CombinedReducer Nat :=
  combineReducers (fun _ => "p") [("k", wReducerBadAction)]

/-- A concrete store with two registered listeners (ids 1 and 2). -/
def wStoreL : StoreCore Nat Unit :=
  { currentState := some 0
    reducerId := ()
    heap := Function.update (fun _ => []) 0 [1, 2]
    currentRef := 0
    nextRef := 0
    fresh := 1
    isDispatching := false }

/-- Concrete listener behaviours: listener 1 subscribes listener 5,
listener 2 unsubscribes listener 1. -/
def wEff : Nat → List ListenerCmd := fun l =>
  if l = 1 then [ListenerCmd.sub 5] else if l = 2 then [ListenerCmd.unsub 1] else []

/-- A concrete store with no listeners. -/
def wStoreE : StoreCore Nat Unit :=
  { currentState := some 0
    reducerId := ()
    heap := fun _ => []
    currentRef := 0
    nextRef := 0
    fresh := 1
    isDispatching := false }

/-- A two-key composition (keys a and b) over the identity-style reducer. -/
def wCrABm : CombinedReducer Nat :=
  combineReducers (fun _ => "p") [("a", wReducerId), ("b", wReducerId)]

/-- A three-key composition (keys a, b and c) over the identity-style
reducer. -/
def wCrABCm : CombinedReducer Nat :=
  combineReducers (fun _ => "p") [("a", wReducerId), ("b", wReducerId), ("c", wReducerId)]

/-- A concrete store whose prior state has keys a, b and c, currently using
the three-key composition. -/
def wStoreABC : StoreCore (JsObj Nat) (CombinedReducer Nat) :=
  { currentState := some [("a", 1), ("b", 2), ("c", 3)]
    reducerId := wCrABCm
    heap := fun _ => []
    currentRef := 0
    nextRef := 0
    fresh := 1
    isDispatching := false }

end Redux

namespace Redux

/-! ### Theorems -/

/-- C5: compose with zero arguments is the identity function; compose with
one argument returns that function itself, unchanged; and composing three
functions applies them right to left: `compose [f, g, h] x = f (g (h x))`. -/
theorem compose_spec {α : Type} (f g h : α → α) :
    (compose ([] : List (α → α)) = fun arg => arg) ∧
    compose [f] = f ∧
    ∀ x, compose [f, g, h] x = f (g (h x)) :=
  ⟨rfl, rfl, fun _ => rfl⟩

/-- C8: the store built through applyMiddleware exposes as `dispatch`
exactly `compose (chain) (store.dispatch)` where the chain is every
middleware applied to the middleware API, and its `getState`, `subscribe`
and `replaceReducer` are the raw store's own operations, unchanged. -/
theorem applyMiddleware_spec {S A R Sb Rp Rd P En : Type}
    (mws : List (Middleware S A R)) (fuel : Nat)
    (createStoreArg : Rd → P → En → RawStore S A R Sb Rp)
    (reducer : Rd) (preloadedState : P) (enhancer : En) :
    (applyMiddleware mws fuel createStoreArg reducer preloadedState enhancer).dispatch
      = compose
          (mws.map (fun mw =>
            mw (middlewareAPI mws fuel (createStoreArg reducer preloadedState enhancer))))
          (createStoreArg reducer preloadedState enhancer).dispatch ∧
    (applyMiddleware mws fuel createStoreArg reducer preloadedState enhancer).getState
      = (createStoreArg reducer preloadedState enhancer).getState ∧
    (applyMiddleware mws fuel createStoreArg reducer preloadedState enhancer).subscribe
      = (createStoreArg reducer preloadedState enhancer).subscribe ∧
    (applyMiddleware mws fuel createStoreArg reducer preloadedState enhancer).replaceReducer
      = (createStoreArg reducer preloadedState enhancer).replaceReducer :=
  ⟨rfl, rfl, rfl, rfl⟩

/-- C10: createStore called with a function as second argument and no third
argument treats that function as the enhancer with an absent preloaded
state, delegating to `enhancer(createStore)(reducer, undefined)` — the same
outcome as `createStore(reducer, undefined, enhancer)`. -/
theorem createStore_enhancer_shift {S ρ E : Type} (env : ReducerEnv S ρ)
    (eff : Nat → List ListenerCmd) (fuel : Nat) (reducer : ρ) (e : E) :
    createStore env eff fuel reducer (JsArg.func e) (JsArg.undef : JsArg S E)
        = some (Except.ok (CreateStoreOutcome.enhanced e reducer JsArg.undef)) ∧
    createStore env eff fuel reducer (JsArg.undef : JsArg S E) (JsArg.func e)
        = some (Except.ok (CreateStoreOutcome.enhanced e reducer JsArg.undef)) :=
  ⟨rfl, rfl⟩

/-- C6: a sanity-probe failure is captured by combineReducers rather than
thrown (composition returns a CombinedReducer value whose `sanityError`
holds the error), and every invocation of the composed reducer — the first
one included — raises exactly that captured error. -/
theorem sanityError_deferred {V : Type} [DecidableEq V] (probes : Nat → String)
    (reducers : List (String × SubReducer V)) (e : String)
    (h : assertReducerSanity probes 0 reducers = some e) :
    (combineReducers probes reducers).sanityError = some e ∧
    ∀ (state : Option (JsObj V)) (action : JsAction),
      combination (combineReducers probes reducers) state action = Except.error e := by
  refine ⟨h, fun state action => ?_⟩
  simp [combination, combineReducers, h]

/-- Witness for `sanityError_deferred` at the concrete failing mapping
`wReducersBad`. -/
theorem sanityError_deferred_witness :
    assertReducerSanity (fun _ => "p") 0 wReducersBad
        = some (initializationErrorMessage "k") ∧
    combination (combineReducers (fun _ => "p") wReducersBad) (some [("k", 5)]) initAction
      = Except.error (initializationErrorMessage "k") :=
  ⟨rfl,
    (sanityError_deferred (fun _ => "p") wReducersBad _ rfl).2 (some [("k", 5)]) initAction⟩

/-- Unfolding equation for the cons case of the combination loop. -/
theorem combinationLoop_cons {V : Type} [DecidableEq V] (st : JsObj V) (a : JsAction)
    (k : String) (r : SubReducer V) (rest : List (String × SubReducer V))
    (acc : JsObj V) (hc : Bool) :
    combinationLoop st a ((k, r) :: rest) acc hc =
      match r (List.lookup k st) a with
      | none => Except.error (getUndefinedStateErrorMessage k a)
      | some v =>
        combinationLoop st a rest (acc ++ [(k, v)])
          (hc || decide (some v ≠ List.lookup k st)) := rfl

/-- Unfolding equation for the cons case of `subResults`. -/
theorem subResults_cons {V : Type} (k : String) (r : SubReducer V)
    (rest : List (String × SubReducer V)) (st : JsObj V) (a : JsAction) (v : V)
    (hv : r (List.lookup k st) a = some v) :
    subResults ((k, r) :: rest) st a = (k, v) :: subResults rest st a := by
  simp [subResults, hv]

/-- When every sub-reducer returns its input slice (all present), the loop
returns the original state object. -/
theorem combinationLoop_all_eq {V : Type} [DecidableEq V] (st : JsObj V) (a : JsAction) :
    ∀ (rs : List (String × SubReducer V)) (acc : JsObj V),
      (∀ p ∈ rs, p.2 (List.lookup p.1 st) a = List.lookup p.1 st) →
      (∀ p ∈ rs, ∃ v, p.2 (List.lookup p.1 st) a = some v) →
      combinationLoop st a rs acc false = Except.ok st := by
  intro rs
  induction rs with
  | nil => intro acc _ _; rfl
  | cons p rest ih =>
    intro acc heq hp
    obtain ⟨k, r⟩ := p
    obtain ⟨v, hv0⟩ := hp (k, r) (List.mem_cons_self _ _)
    have hv : r (List.lookup k st) a = some v := hv0
    have h1 : r (List.lookup k st) a = List.lookup k st :=
      heq (k, r) (List.mem_cons_self _ _)
    have h2 : some v = List.lookup k st := hv.symm.trans h1
    have hd : decide (some v ≠ List.lookup k st) = false := by simp [h2]
    rw [combinationLoop_cons, hv]
    simp only [hd, Bool.or_false]
    exact ih _ (fun q hq => heq q (List.mem_cons_of_mem _ hq))
      (fun q hq => hp q (List.mem_cons_of_mem _ hq))

/-- Once `hasChanged` is true and every sub-result is present, the loop
returns the accumulator extended with every remaining key's sub-result. -/
theorem combinationLoop_changed {V : Type} [DecidableEq V] (st : JsObj V) (a : JsAction) :
    ∀ (rs : List (String × SubReducer V)) (acc : JsObj V),
      (∀ p ∈ rs, ∃ v, p.2 (List.lookup p.1 st) a = some v) →
      combinationLoop st a rs acc true = Except.ok (acc ++ subResults rs st a) := by
  intro rs
  induction rs with
  | nil => intro acc _; simp [combinationLoop, subResults]
  | cons p rest ih =>
    intro acc hp
    obtain ⟨k, r⟩ := p
    obtain ⟨v, hv0⟩ := hp (k, r) (List.mem_cons_self _ _)
    have hv : r (List.lookup k st) a = some v := hv0
    rw [combinationLoop_cons, hv]
    simp only [Bool.true_or]
    rw [ih _ (fun q hq => hp q (List.mem_cons_of_mem _ hq)),
      subResults_cons k r rest st a v hv]
    simp [List.append_assoc]

/-- If every sub-result is present and at least one of them differs by
reference from its input slice, the loop returns the freshly built mapping
of every key's sub-result. -/
theorem combinationLoop_exists_ne {V : Type} [DecidableEq V] (st : JsObj V) (a : JsAction) :
    ∀ (rs : List (String × SubReducer V)) (acc : JsObj V),
      (∀ p ∈ rs, ∃ v, p.2 (List.lookup p.1 st) a = some v) →
      (∃ p ∈ rs, p.2 (List.lookup p.1 st) a ≠ List.lookup p.1 st) →
      combinationLoop st a rs acc false = Except.ok (acc ++ subResults rs st a) := by
  intro rs
  induction rs with
  | nil => intro acc _ hne; exact absurd hne (by simp)
  | cons p rest ih =>
    intro acc hp hne
    obtain ⟨k, r⟩ := p
    obtain ⟨v, hv0⟩ := hp (k, r) (List.mem_cons_self _ _)
    have hv : r (List.lookup k st) a = some v := hv0
    by_cases hceq : r (List.lookup k st) a = List.lookup k st
    · have h2 : some v = List.lookup k st := hv.symm.trans hceq
      have hd : decide (some v ≠ List.lookup k st) = false := by simp [h2]
      rw [combinationLoop_cons, hv]
      simp only [hd, Bool.or_false]
      have hne' : ∃ p ∈ rest, p.2 (List.lookup p.1 st) a ≠ List.lookup p.1 st := by
        rcases hne with ⟨q, hqmem, hqne⟩
        rcases List.mem_cons.mp hqmem with hq | hq
        · subst hq; exact absurd hceq hqne
        · exact ⟨q, hq, hqne⟩
      rw [ih _ (fun q hq => hp q (List.mem_cons_of_mem _ hq)) hne',
        subResults_cons k r rest st a v hv]
      simp [List.append_assoc]
    · have hd : decide (some v ≠ List.lookup k st) = true := by
        simp only [ne_eq, decide_not, Bool.not_eq_true']
        simp [← hv, hceq]
      rw [combinationLoop_cons, hv]
      simp only [hd, Bool.or_true]
      rw [combinationLoop_changed st a rest _ (fun q hq => hp q (List.mem_cons_of_mem _ hq)),
        subResults_cons k r rest st a v hv]
      simp [List.append_assoc]

/-- Every retained key's (present) sub-result appears in the freshly built
mapping. -/
theorem subResults_mem {V : Type} (rs : List (String × SubReducer V)) (st : JsObj V)
    (a : JsAction) (p : String × SubReducer V) (v : V) (hmem : p ∈ rs)
    (hv : p.2 (List.lookup p.1 st) a = some v) :
    (p.1, v) ∈ subResults rs st a :=
  List.mem_filterMap.mpr ⟨p, hmem, by simp [hv]⟩

/-- C1: for a composed reducer (with no captured sanity error) and any
action whose sub-results are all present, if every sub-reducer's result is
reference-equal to its input slice of the state, the composed reducer
returns the original state object itself; otherwise it returns the freshly
built mapping of every retained key's sub-result (and that mapping contains
every retained key's sub-result). -/
theorem combination_noop_or_fresh {V : Type} [DecidableEq V] (cr : CombinedReducer V)
    (st : JsObj V) (a : JsAction)
    (hs : cr.sanityError = none)
    (hp : ∀ p ∈ cr.finalReducers, ∃ v, p.2 (List.lookup p.1 st) a = some v) :
    ((∀ p ∈ cr.finalReducers, p.2 (List.lookup p.1 st) a = List.lookup p.1 st) →
        combination cr (some st) a = Except.ok st) ∧
    ((∃ p ∈ cr.finalReducers, p.2 (List.lookup p.1 st) a ≠ List.lookup p.1 st) →
        combination cr (some st) a = Except.ok (subResults cr.finalReducers st a) ∧
        ∀ p ∈ cr.finalReducers, ∀ v, p.2 (List.lookup p.1 st) a = some v →
          (p.1, v) ∈ subResults cr.finalReducers st a) := by
  constructor
  · intro heq
    simp only [combination, hs, Option.getD_some]
    exact combinationLoop_all_eq st a cr.finalReducers [] heq hp
  · intro hne
    refine ⟨?_, fun p hpm v hv => subResults_mem cr.finalReducers st a p v hpm hv⟩
    simp only [combination, hs, Option.getD_some]
    simpa using combinationLoop_exists_ne st a cr.finalReducers [] hp hne

/-- Witness for `combination_noop_or_fresh` at the concrete one-key
composition `wCrA` applied to a state it ignores: the no-op branch yields
the original state object. -/
theorem combination_noop_or_fresh_witness :
    (wCrA.sanityError = none ∧
      ∀ p ∈ wCrA.finalReducers, ∃ v, p.2 (List.lookup p.1 [("a", 1)]) initAction = some v) ∧
    ((∀ p ∈ wCrA.finalReducers,
        p.2 (List.lookup p.1 [("a", 1)]) initAction = List.lookup p.1 [("a", 1)]) →
      combination wCrA (some [("a", 1)]) initAction = Except.ok [("a", 1)]) := by
  have hp : ∀ p ∈ wCrA.finalReducers, ∃ v, p.2 (List.lookup p.1 [("a", 1)]) initAction = some v := by
    intro p hp
    rcases List.mem_singleton.mp hp with rfl
    exact ⟨1, rfl⟩
  exact ⟨⟨rfl, hp⟩,
    (combination_noop_or_fresh wCrA [("a", 1)] initAction rfl hp).1⟩

/-- If every key before some retained key has a present sub-result and that
key's sub-result is absent, the loop throws getUndefinedStateErrorMessage
for that key. -/
theorem combinationLoop_first_none {V : Type} [DecidableEq V] (st : JsObj V)
    (a : JsAction) (k : String) (r : SubReducer V)
    (post : List (String × SubReducer V)) (hk : r (List.lookup k st) a = none) :
    ∀ (pre : List (String × SubReducer V)) (acc : JsObj V) (hc : Bool),
      (∀ p ∈ pre, ∃ v, p.2 (List.lookup p.1 st) a = some v) →
      combinationLoop st a (pre ++ (k, r) :: post) acc hc
        = Except.error (getUndefinedStateErrorMessage k a) := by
  intro pre
  induction pre with
  | nil =>
    intro acc hc _
    rw [List.nil_append, combinationLoop_cons, hk]
  | cons p rest ih =>
    intro acc hc hpre
    obtain ⟨k', r'⟩ := p
    obtain ⟨v, hv0⟩ := hpre (k', r') (List.mem_cons_self _ _)
    have hv : r' (List.lookup k' st) a = some v := hv0
    rw [List.cons_append, combinationLoop_cons, hv]
    exact ih _ _ (fun q hq => hpre q (List.mem_cons_of_mem _ hq))

/-- C7: the composed reducer never produces an absent result — when a
retained sub-reducer returns an absent result for its key (every earlier
key's sub-result being present), the composed reducer raises the fatal
getUndefinedStateErrorMessage error for that key, and that message names
both the offending key and the action's `type` value (as substrings of the
message). -/
theorem combination_undefined_state_error {V : Type} [DecidableEq V]
    (cr : CombinedReducer V) (st : JsObj V) (t : String)
    (pre post : List (String × SubReducer V)) (k : String) (r : SubReducer V)
    (hs : cr.sanityError = none)
    (hsplit : cr.finalReducers = pre ++ (k, r) :: post)
    (hpre : ∀ p ∈ pre, ∃ v, p.2 (List.lookup p.1 st) (JsAction.obj (some t)) = some v)
    (hk : r (List.lookup k st) (JsAction.obj (some t)) = none) :
    combination cr (some st) (JsAction.obj (some t))
        = Except.error (getUndefinedStateErrorMessage k (JsAction.obj (some t))) ∧
    (∃ x y, getUndefinedStateErrorMessage k (JsAction.obj (some t)) = x ++ k ++ y) ∧
    (∃ x y, getUndefinedStateErrorMessage k (JsAction.obj (some t)) = x ++ t ++ y) := by
  refine ⟨?_, ⟨"Given action " ++ actionName (JsAction.obj (some t)) ++ ", reducer \"",
    "\" returned undefined. To ignore an action, you must explicitly return the previous state.",
    rfl⟩, ?_⟩
  · simp only [combination, hs, Option.getD_some, hsplit]
    exact combinationLoop_first_none st (JsAction.obj (some t)) k r post hk pre [] false hpre
  · by_cases ht : t = ""
    · subst ht
      exact ⟨"", getUndefinedStateErrorMessage k (JsAction.obj (some "")), rfl⟩
    · refine ⟨"Given action " ++ "\"",
        "\"" ++ ", reducer \"" ++ k ++
          "\" returned undefined. To ignore an action, you must explicitly return the previous state.",
        ?_⟩
      simp only [getUndefinedStateErrorMessage, actionName, if_neg ht]
      simp only [String.append_assoc]

/-- ensureCanMutateNextListeners preserves the notification invariant, does
not change the contents of the `nextListeners` array, and afterwards
`nextListeners` no longer aliases the dispatch snapshot. -/
theorem ensure_notifyInv {S ρ : Type} (lref : Nat) (L0 : List Nat) (st : StoreCore S ρ)
    (h : NotifyInv lref L0 st) :
    NotifyInv lref L0 (ensureCanMutateNextListeners st) ∧
    (ensureCanMutateNextListeners st).heap (ensureCanMutateNextListeners st).nextRef
      = st.heap st.nextRef ∧
    (ensureCanMutateNextListeners st).nextRef ≠ lref := by
  obtain ⟨h1, h2, h3, h4⟩ := h
  unfold ensureCanMutateNextListeners
  by_cases he : st.nextRef = st.currentRef
  · rw [if_pos he]
    refine ⟨⟨h1, ?_, Nat.lt_succ_of_lt h3, Nat.lt_succ_self _⟩, ?_, ?_⟩
    · simp only [Function.update_noteq (Nat.ne_of_lt h3)]
      exact h2
    · simp only [Function.update_same]
      rw [he]
    · exact Ne.symm (Nat.ne_of_lt h3)
  · rw [if_neg he]
    exact ⟨⟨h1, h2, h3, h4⟩, rfl, fun hc => he (hc.trans h1.symm)⟩

/-- One listener call (subscribe, or the first call of an unsubscribe
closure) preserves the notification invariant and acts on the value of the
`nextListeners` array exactly as `applyCmdPure` describes. -/
theorem runCmd_notifyInv {S ρ : Type} {lref : Nat} {L0 : List Nat} {st : StoreCore S ρ}
    (h : NotifyInv lref L0 st) (c : ListenerCmd) :
    NotifyInv lref L0 (runCmd st c) ∧
    (runCmd st c).heap (runCmd st c).nextRef = applyCmdPure (st.heap st.nextRef) c := by
  obtain ⟨hInv1, hHeapNext, hNe⟩ := ensure_notifyInv lref L0 st h
  obtain ⟨e1, e2, e3, e4⟩ := hInv1
  cases c with
  | sub l =>
    simp only [runCmd, subscribeListener, applyCmdPure]
    refine ⟨⟨e1, ?_, e3, e4⟩, ?_⟩
    · simp only [Function.update_noteq (Ne.symm hNe)]
      exact e2
    · simp only [Function.update_same]
      rw [hHeapNext]
  | unsub l =>
    simp only [runCmd, unsubscribeListener, Bool.not_true, Bool.false_eq_true,
      if_false, applyCmdPure]
    refine ⟨⟨e1, ?_, e3, e4⟩, ?_⟩
    · simp only [Function.update_noteq (Ne.symm hNe)]
      exact e2
    · simp only [Function.update_same]
      rw [hHeapNext]

/-- Listener calls only touch the listener bookkeeping: the state, the
dispatching flag and the current reducer are untouched. -/
theorem runCmd_preserves {S ρ : Type} (st : StoreCore S ρ) (c : ListenerCmd) :
    (runCmd st c).currentState = st.currentState ∧
    (runCmd st c).isDispatching = st.isDispatching ∧
    (runCmd st c).reducerId = st.reducerId := by
  cases c <;>
    simp only [runCmd, subscribeListener, unsubscribeListener, Bool.not_true,
      Bool.false_eq_true, if_false, ensureCanMutateNextListeners] <;>
    split <;> exact ⟨rfl, rfl, rfl⟩

/-- A whole listener body (a list of calls) preserves the notification
invariant and folds `applyCmdPure` over the `nextListeners` value. -/
theorem runCmds_notifyInv {S ρ : Type} {lref : Nat} {L0 : List Nat} :
    ∀ (cs : List ListenerCmd) (st : StoreCore S ρ), NotifyInv lref L0 st →
      NotifyInv lref L0 (runCmds st cs) ∧
      (runCmds st cs).heap (runCmds st cs).nextRef
        = cs.foldl applyCmdPure (st.heap st.nextRef) ∧
      (runCmds st cs).currentState = st.currentState ∧
      (runCmds st cs).isDispatching = st.isDispatching ∧
      (runCmds st cs).reducerId = st.reducerId
  | [], st, h => ⟨h, rfl, rfl, rfl, rfl⟩
  | c :: cs, st, h => by
    obtain ⟨h1, h2⟩ := runCmd_notifyInv h c
    obtain ⟨p1, p2, p3⟩ := runCmd_preserves st c
    obtain ⟨h3, h4, h5, h6, h7⟩ := runCmds_notifyInv cs (runCmd st c) h1
    refine ⟨h3, ?_, ?_, ?_, ?_⟩
    · show (runCmds (runCmd st c) cs).heap (runCmds (runCmd st c) cs).nextRef
        = cs.foldl applyCmdPure (applyCmdPure (st.heap st.nextRef) c)
      rw [h4, h2]
    · exact h5.trans p1
    · exact h6.trans p2
    · exact h7.trans p3

/-- The notification loop of a dispatch: given the invariant, it terminates
with enough fuel, invokes exactly the snapshot contents `L0` (from position
`i`) in order regardless of what the listeners do, and leaves the
`nextListeners` value equal to the fold of all listener calls over its
starting value. -/
theorem notifyLoop_spec {S ρ : Type} (eff : Nat → List ListenerCmd) (lref : Nat)
    (L0 : List Nat) :
    ∀ (fuel i : Nat) (st : StoreCore S ρ), NotifyInv lref L0 st →
      L0.length - i < fuel →
      ∃ st', notifyLoop eff fuel st lref i = some (st', L0.drop i) ∧
        NotifyInv lref L0 st' ∧
        st'.heap st'.nextRef
          = (effCmds eff (L0.drop i)).foldl applyCmdPure (st.heap st.nextRef) ∧
        st'.currentState = st.currentState ∧
        st'.isDispatching = st.isDispatching ∧
        st'.reducerId = st.reducerId := by
  intro fuel
  induction fuel with
  | zero => intro i st _ hf; omega
  | succ fuel ih =>
    intro i st hInv hf
    obtain ⟨h1, h2, h3, h4⟩ := hInv
    by_cases hi : i < L0.length
    · have hget : (st.heap lref)[i]? = some (L0.get ⟨i, hi⟩) := by
        rw [h2]
        exact List.getElem?_eq_getElem hi
      have hdrop : L0.drop i = L0.get ⟨i, hi⟩ :: L0.drop (i + 1) :=
        (List.getElem_cons_drop _ _ hi).symm
      obtain ⟨hInv', hheap', hp1, hp2, hp3⟩ :=
        runCmds_notifyInv (eff (L0.get ⟨i, hi⟩)) st ⟨h1, h2, h3, h4⟩
      obtain ⟨st', hrun, hInv'', hheap'', hq1, hq2, hq3⟩ :=
        ih (i + 1) (runCmds st (eff (L0.get ⟨i, hi⟩))) hInv' (by omega)
      refine ⟨st', ?_, hInv'', ?_, hq1.trans hp1, hq2.trans hp2, hq3.trans hp3⟩
      · simp only [notifyLoop, hget, hrun, hdrop]
      · rw [hheap'', hheap', hdrop]
        simp only [effCmds, List.map_cons, List.flatten_cons, List.foldl_append]
    · have hnone : (st.heap lref)[i]? = none := by
        rw [h2]
        exact List.getElem?_eq_none (by omega)
      have hdrop : L0.drop i = [] := List.drop_eq_nil_of_le (by omega)
      refine ⟨st, ?_, ⟨h1, h2, h3, h4⟩, ?_, rfl, rfl, rfl⟩
      · simp only [notifyLoop, hnone, hdrop]
      · rw [hdrop]
        simp [effCmds]

/-- A dispatch issued while `isDispatching` is set — which is exactly the
store state during the current reducer call — throws the reentrancy error
and changes nothing. -/
theorem dispatch_flag_true {S ρ : Type} (env : ReducerEnv S ρ)
    (eff : Nat → List ListenerCmd) (fuel : Nat) (st : StoreCore S ρ) (t : String)
    (h : st.isDispatching = true) :
    dispatch env eff fuel st (JsAction.obj (some t))
      = some (st, [], Except.error reentrancyErrorMessage) := by
  simp [dispatch, h]

/-- The behaviour of a successful dispatch: validation passes, the reducer
(called on the flagged store) succeeds, the flag ends cleared, the
notification pass invokes exactly the pre-dispatch `nextListeners` snapshot
in order, and the post-dispatch `nextListeners` value is the fold of every
listener call made during the pass. -/
theorem dispatch_ok_spec {S ρ : Type} (env : ReducerEnv S ρ)
    (eff : Nat → List ListenerCmd) (fuel : Nat) (st : StoreCore S ρ) (t : String) (s' : S)
    (hw : StoreWf st) (hf : st.isDispatching = false)
    (hr : env st.reducerId { st with isDispatching := true } st.currentState
        (JsAction.obj (some t)) = Except.ok s')
    (hfuel : (st.heap st.nextRef).length < fuel) :
    ∃ st', dispatch env eff fuel st (JsAction.obj (some t))
        = some (st', st.heap st.nextRef, Except.ok (JsAction.obj (some t))) ∧
      st'.currentState = some s' ∧ st'.isDispatching = false ∧ StoreWf st' ∧
      st'.currentRef = st.nextRef ∧
      st'.heap st'.nextRef
        = (effCmds eff (st.heap st.nextRef)).foldl applyCmdPure (st.heap st.nextRef) := by
  obtain ⟨hw1, hw2⟩ := hw
  obtain ⟨st', hloop, hInv', hheap', hs1, hs2, _⟩ :=
    notifyLoop_spec eff st.nextRef (st.heap st.nextRef) fuel 0
      { st with currentState := some s', isDispatching := false,
                currentRef := st.nextRef }
      ⟨rfl, rfl, hw2, hw2⟩ (by omega)
  obtain ⟨i1, i2, i3, i4⟩ := hInv'
  rw [List.drop_zero] at hloop hheap'
  refine ⟨st', ?_, hs1, hs2, ⟨i1 ▸ i3, i4⟩, i1, hheap'⟩
  simp only [dispatch, hf, Bool.false_eq_true, if_false, hr]
  rw [hloop]

/-- C2: the listeners invoked during a dispatch are exactly the subscribers
registered strictly before the dispatch began (the `nextListeners` value at
dispatch start), each invoked exactly once in registration order before the
dispatch returns, whatever subscribe/unsubscribe calls the listeners make;
those calls only change the subscriber list used from the next dispatch on,
whose notification pass invokes exactly the updated list. -/
theorem dispatch_notifies_snapshot {S ρ : Type} (env env2 : ReducerEnv S ρ)
    (eff eff2 : Nat → List ListenerCmd) (fuel fuel2 : Nat) (st : StoreCore S ρ)
    (t t2 : String) (s' s2 : S)
    (hw : StoreWf st) (hf : st.isDispatching = false)
    (hr : env st.reducerId { st with isDispatching := true } st.currentState
        (JsAction.obj (some t)) = Except.ok s')
    (hfuel : (st.heap st.nextRef).length < fuel)
    (h2 : ∀ i stM s a, env2 i stM s a = Except.ok s2)
    (hfuel2 : ((effCmds eff (st.heap st.nextRef)).foldl applyCmdPure
        (st.heap st.nextRef)).length < fuel2) :
    ∃ st', dispatch env eff fuel st (JsAction.obj (some t))
        = some (st', st.heap st.nextRef, Except.ok (JsAction.obj (some t))) ∧
      st'.heap st'.nextRef
        = (effCmds eff (st.heap st.nextRef)).foldl applyCmdPure (st.heap st.nextRef) ∧
      ∃ st'', dispatch env2 eff2 fuel2 st' (JsAction.obj (some t2))
        = some (st'',
            (effCmds eff (st.heap st.nextRef)).foldl applyCmdPure (st.heap st.nextRef),
            Except.ok (JsAction.obj (some t2))) := by
  obtain ⟨st', hdisp, _, hflag, hw', _, hheap⟩ :=
    dispatch_ok_spec env eff fuel st t s' hw hf hr hfuel
  obtain ⟨st'', hdisp2, _, _, _, _, _⟩ :=
    dispatch_ok_spec env2 eff2 fuel2 st' t2 s2 hw' hflag (h2 _ _ _ _)
      (by rw [hheap]; exact hfuel2)
  exact ⟨st', hdisp, hheap, st'', by rw [hdisp2, hheap]⟩

/-- Witness for `dispatch_notifies_snapshot` at the concrete store
`wStoreL` (listeners 1 and 2) with behaviours `wEff` (1 subscribes 5, 2
unsubscribes 1): dispatch N invokes [1, 2]; dispatch N+1 invokes [2, 5]. -/
theorem dispatch_notifies_snapshot_witness :
    (StoreWf wStoreL ∧ (wStoreL.heap wStoreL.nextRef).length < 3 ∧
      ((effCmds wEff (wStoreL.heap wStoreL.nextRef)).foldl applyCmdPure
          (wStoreL.heap wStoreL.nextRef)).length < 3) ∧
    ∃ st', dispatch (fun _ _ _ _ => Except.ok 7) wEff 3 wStoreL (JsAction.obj (some "A"))
        = some (st', wStoreL.heap wStoreL.nextRef, Except.ok (JsAction.obj (some "A"))) ∧
      st'.heap st'.nextRef
        = (effCmds wEff (wStoreL.heap wStoreL.nextRef)).foldl applyCmdPure
            (wStoreL.heap wStoreL.nextRef) ∧
      ∃ st'', dispatch (fun _ _ _ _ => Except.ok 5) wEff 3 st' (JsAction.obj (some "B"))
        = some (st'',
            (effCmds wEff (wStoreL.heap wStoreL.nextRef)).foldl applyCmdPure
              (wStoreL.heap wStoreL.nextRef),
            Except.ok (JsAction.obj (some "B"))) :=
  ⟨⟨⟨by decide, by decide⟩, by decide, by decide⟩,
    dispatch_notifies_snapshot (fun _ _ _ _ => Except.ok 7) (fun _ _ _ _ => Except.ok 5)
      wEff wEff 3 3 wStoreL "A" "B" 7 5 ⟨by decide, by decide⟩ rfl rfl (by decide)
      (fun _ _ _ _ => rfl) (by decide)⟩

/-- C3: a reducer whose body calls the store's dispatch makes the dispatch
fail with the reentrancy error; the in-progress flag is reset after the
attempt (as it also is after any throwing reducer), the state is untouched,
and a subsequent top-level dispatch on the same store succeeds, again ending
with the flag cleared. -/
theorem dispatch_reentrancy_guarded {S ρ : Type} (env' env2 : ReducerEnv S ρ)
    (eff eff' eff2 : Nat → List ListenerCmd) (fuel fuel' fuel2 : Nat)
    (st : StoreCore S ρ) (t t2 t3 : String) (d s2 : S)
    (hw : StoreWf st) (hf : st.isDispatching = false)
    (h2 : ∀ i stM s a, env2 i stM s a = Except.ok s2)
    (hfuel2 : (st.heap st.nextRef).length < fuel2) :
    ∃ st', dispatch (dispatchingReducerEnv env' eff' fuel' (JsAction.obj (some t2)) d)
          eff fuel st (JsAction.obj (some t))
        = some (st', [], Except.error reentrancyErrorMessage) ∧
      st'.isDispatching = false ∧
      st'.currentState = st.currentState ∧
      st'.heap st'.nextRef = st.heap st.nextRef ∧
      ∃ st'', dispatch env2 eff2 fuel2 st' (JsAction.obj (some t3))
          = some (st'', st.heap st.nextRef, Except.ok (JsAction.obj (some t3))) ∧
        st''.isDispatching = false := by
  have hred : dispatchingReducerEnv env' eff' fuel' (JsAction.obj (some t2)) d
      st.reducerId { st with isDispatching := true } st.currentState
      (JsAction.obj (some t)) = Except.error reentrancyErrorMessage := by
    simp only [dispatchingReducerEnv,
      dispatch_flag_true env' eff' fuel' { st with isDispatching := true } t2 rfl]
  refine ⟨{ st with isDispatching := false }, ?_, rfl, rfl, rfl, ?_⟩
  · simp only [dispatch, hf, Bool.false_eq_true, if_false, hred]
  · obtain ⟨st'', hdisp2, _, hflag'', _, _, _⟩ :=
      dispatch_ok_spec env2 eff2 fuel2 { st with isDispatching := false } t3 s2
        ⟨hw.1, hw.2⟩ rfl (h2 _ _ _ _) hfuel2
    exact ⟨st'', hdisp2, hflag''⟩

/-- Witness for `dispatch_reentrancy_guarded` at the concrete empty-listener
store `wStoreE`. -/
theorem dispatch_reentrancy_guarded_witness :
    (StoreWf wStoreE ∧ wStoreE.isDispatching = false ∧
      (wStoreE.heap wStoreE.nextRef).length < 1) ∧
    ∃ st', dispatch (dispatchingReducerEnv (fun _ _ _ _ => Except.ok 0) (fun _ => []) 1
          (JsAction.obj (some "B")) 0) (fun _ => []) 1 wStoreE (JsAction.obj (some "A"))
        = some (st', [], Except.error reentrancyErrorMessage) ∧
      st'.isDispatching = false ∧
      st'.currentState = wStoreE.currentState ∧
      st'.heap st'.nextRef = wStoreE.heap wStoreE.nextRef ∧
      ∃ st'', dispatch (fun _ _ _ _ => Except.ok 5) (fun _ => []) 1 st'
          (JsAction.obj (some "C"))
          = some (st'', wStoreE.heap wStoreE.nextRef, Except.ok (JsAction.obj (some "C"))) ∧
        st''.isDispatching = false :=
  ⟨⟨⟨by decide, by decide⟩, rfl, by decide⟩,
    dispatch_reentrancy_guarded (fun _ _ _ _ => Except.ok 0) (fun _ _ _ _ => Except.ok 5)
      (fun _ => []) (fun _ => []) (fun _ => []) 1 1 1 wStoreE "A" "B" "C" 0 5
      ⟨by decide, by decide⟩ rfl (fun _ _ _ _ => rfl) (by decide)⟩

/-- For a present element, `indexOf` returns the position of its first
occurrence. -/
theorem jsIndexOf_of_mem {l : Nat} :
    ∀ (xs : List Nat), l ∈ xs →
      ∃ pre post, xs = pre ++ l :: post ∧ l ∉ pre ∧ jsIndexOf xs l = (pre.length : Int)
  | [], h => absurd h (List.not_mem_nil l)
  | x :: rest, h => by
    by_cases hx : x = l
    · exact ⟨[], rest, by simp [hx], List.not_mem_nil l, by simp [jsIndexOf, hx]⟩
    · have hmem : l ∈ rest := by
        rcases List.mem_cons.mp h with h' | h'
        · exact absurd h'.symm hx
        · exact h'
      obtain ⟨pre, post, he, hnp, hidx⟩ := jsIndexOf_of_mem rest hmem
      refine ⟨x :: pre, post, by rw [List.cons_append, he], ?_, ?_⟩
      · intro hc
        rcases List.mem_cons.mp hc with h'' | h''
        · exact hx h''.symm
        · exact hnp h''
      · simp only [jsIndexOf, if_neg hx, hidx]
        rw [if_neg (by omega)]
        simp only [List.length_cons]
        push_cast
        ring

/-- Splicing one element out at the position of the first occurrence removes
exactly that occurrence. -/
theorem jsSplice1_at_length (pre post : List Nat) (l : Nat) :
    jsSplice1 (pre ++ l :: post) (pre.length : Int) = pre ++ post := by
  have hmin : min ((pre.length : Int)).toNat (pre ++ l :: post).length = pre.length := by
    rw [Int.toNat_natCast]
    exact min_eq_left (by simp)
  simp only [jsSplice1, if_neg (show ¬ ((pre.length : Int) < 0) by omega), hmin]
  have h4 : (pre ++ l :: post).drop (pre.length + 1) = post := by
    have heq : pre ++ l :: post = (pre ++ [l]) ++ post := by simp
    rw [heq, show pre.length + 1 = (pre ++ [l]).length by simp]
    exact List.drop_left (pre ++ [l]) post
  rw [List.take_left, h4]

/-- ensureCanMutateNextListeners on a well-formed store: well-formedness is
preserved, the `nextListeners` value is unchanged, afterwards `nextListeners`
no longer aliases `currentListeners`, and the `currentListeners` reference
and array are untouched. -/
theorem ensure_wf {S ρ : Type} (st : StoreCore S ρ) (hw : StoreWf st) :
    StoreWf (ensureCanMutateNextListeners st) ∧
    (ensureCanMutateNextListeners st).heap (ensureCanMutateNextListeners st).nextRef
      = st.heap st.nextRef ∧
    (ensureCanMutateNextListeners st).nextRef ≠ st.currentRef ∧
    (ensureCanMutateNextListeners st).currentRef = st.currentRef ∧
    (ensureCanMutateNextListeners st).heap st.currentRef = st.heap st.currentRef := by
  obtain ⟨hw1, hw2⟩ := hw
  unfold ensureCanMutateNextListeners
  by_cases he : st.nextRef = st.currentRef
  · rw [if_pos he]
    refine ⟨⟨Nat.lt_succ_of_lt hw1, Nat.lt_succ_self _⟩, ?_, Ne.symm (Nat.ne_of_lt hw1),
      rfl, ?_⟩
    · simp only [Function.update_same]
      rw [he]
    · simp only [Function.update_noteq (Nat.ne_of_lt hw1)]
  · rw [if_neg he]
    exact ⟨⟨hw1, hw2⟩, rfl, he, rfl, rfl⟩

/-- C9: for a listener still present in `nextListeners`, the first call of
its unsubscribe closure clears the subscription flag and removes exactly the
first occurrence of that listener from the `nextListeners` list, leaving the
in-flight `currentListeners` array untouched and the count of every other
listener unchanged; every subsequent call is a complete no-op. -/
theorem unsubscribe_idempotent {S ρ : Type} (st : StoreCore S ρ) (l : Nat)
    (hw : StoreWf st) (hl : l ∈ st.heap st.nextRef) :
    ∃ pre post, st.heap st.nextRef = pre ++ l :: post ∧ l ∉ pre ∧
      (unsubscribeListener l (true, st)).1 = false ∧
      (unsubscribeListener l (true, st)).2.heap
          (unsubscribeListener l (true, st)).2.nextRef = pre ++ post ∧
      (unsubscribeListener l (true, st)).2.heap st.currentRef
        = st.heap st.currentRef ∧
      (∀ m, m ≠ l → (pre ++ post).count m = (st.heap st.nextRef).count m) ∧
      ∀ (st2 : StoreCore S ρ), unsubscribeListener l (false, st2) = (false, st2) := by
  obtain ⟨hwf, hnextv, hne, hcur, hheapcur⟩ := ensure_wf st hw
  obtain ⟨pre, post, hsplit, hnp, hidx⟩ := jsIndexOf_of_mem (st.heap st.nextRef) hl
  have hval : jsSplice1 ((ensureCanMutateNextListeners st).heap
      (ensureCanMutateNextListeners st).nextRef)
      (jsIndexOf ((ensureCanMutateNextListeners st).heap
        (ensureCanMutateNextListeners st).nextRef) l) = pre ++ post := by
    rw [hnextv, hsplit] at *
    rw [hidx]
    exact jsSplice1_at_length pre post l
  refine ⟨pre, post, hsplit, hnp, rfl, ?_, ?_, ?_, fun st2 => rfl⟩
  · simp only [unsubscribeListener, Bool.not_true, Bool.false_eq_true, if_false]
    simp only [Function.update_same]
    exact hval
  · simp only [unsubscribeListener, Bool.not_true, Bool.false_eq_true, if_false]
    rw [Function.update_noteq (Ne.symm hne)]
    exact hheapcur
  · intro m hm
    rw [hsplit]
    simp [List.count_append, List.count_cons, hm]

/-- Unfolding equation for `subResults` when the sub-result is absent. -/
theorem subResults_cons_none {V : Type} (k : String) (r : SubReducer V)
    (rest : List (String × SubReducer V)) (st : JsObj V) (a : JsAction)
    (hv : r (List.lookup k st) a = none) :
    subResults ((k, r) :: rest) st a = subResults rest st a := by
  simp [subResults, hv]

/-- A key handled by no retained reducer does not occur in the freshly built
mapping. -/
theorem lookup_subResults_none {V : Type} (st0 : JsObj V) (a : JsAction) (k : String) :
    ∀ (rs : List (String × SubReducer V)), (∀ p ∈ rs, p.1 ≠ k) →
      List.lookup k (subResults rs st0 a) = none
  | [], _ => rfl
  | (k', r') :: rest, hc => by
    have hk' : k' ≠ k := hc (k', r') (List.mem_cons_self _ _)
    have ih := lookup_subResults_none st0 a k rest
      (fun q hq => hc q (List.mem_cons_of_mem _ hq))
    cases hr : r' (List.lookup k' st0) a with
    | none => rw [subResults_cons_none k' r' rest st0 a hr]; exact ih
    | some v =>
      rw [subResults_cons k' r' rest st0 a v hr]
      have hb : (k == k') = false := beq_eq_false_iff_ne.mpr (Ne.symm hk')
      simp only [List.lookup, hb]
      exact ih

/-- C4 (amended): after replaceReducer installs a composed reducer that does
not handle key c on a store whose prior state is `st0`, the immediately
issued INIT dispatch reshapes the state only if some retained sub-reducer
returns a result that differs by reference from its input slice — in that
case the very next state is the freshly built mapping, which no longer
contains key c; if every sub-result is reference-equal to its slice, the
prior state object is kept unchanged, key c included. -/
theorem replaceReducer_reshape_amended {V : Type} [DecidableEq V]
    (cr : CombinedReducer V) (st : StoreCore (JsObj V) (CombinedReducer V))
    (st0 : JsObj V) (eff : Nat → List ListenerCmd) (fuel : Nat)
    (hw : StoreWf st) (hf : st.isDispatching = false)
    (h0 : st.currentState = some st0)
    (hs : cr.sanityError = none)
    (hc : ∀ p ∈ cr.finalReducers, p.1 ≠ "c")
    (hp : ∀ p ∈ cr.finalReducers, ∃ v, p.2 (List.lookup p.1 st0) initAction = some v)
    (hfuel : (st.heap st.nextRef).length < fuel) :
    ((∃ p ∈ cr.finalReducers,
        p.2 (List.lookup p.1 st0) initAction ≠ List.lookup p.1 st0) →
      ∃ st', replaceReducer combinedReducerEnv eff fuel st cr
          = some (st', st.heap st.nextRef, Except.ok initAction) ∧
        st'.currentState = some (subResults cr.finalReducers st0 initAction) ∧
        List.lookup "c" (subResults cr.finalReducers st0 initAction) = none) ∧
    ((∀ p ∈ cr.finalReducers,
        p.2 (List.lookup p.1 st0) initAction = List.lookup p.1 st0) →
      ∃ st', replaceReducer combinedReducerEnv eff fuel st cr
          = some (st', st.heap st.nextRef, Except.ok initAction) ∧
        st'.currentState = some st0) := by
  constructor
  · intro hch
    have hr : combinedReducerEnv ({ st with reducerId := cr }).reducerId
        { { st with reducerId := cr } with isDispatching := true }
        ({ st with reducerId := cr }).currentState (JsAction.obj (some ActionTypesINIT))
        = Except.ok (subResults cr.finalReducers st0 initAction) := by
      show combination cr st.currentState initAction = _
      rw [h0]
      simp only [combination, hs, Option.getD_some]
      simpa using combinationLoop_exists_ne st0 initAction cr.finalReducers [] hp hch
    obtain ⟨st', hdisp, hst, _, _, _, _⟩ :=
      dispatch_ok_spec combinedReducerEnv eff fuel { st with reducerId := cr }
        ActionTypesINIT (subResults cr.finalReducers st0 initAction)
        ⟨hw.1, hw.2⟩ hf hr hfuel
    exact ⟨st', hdisp, hst, lookup_subResults_none st0 initAction "c" cr.finalReducers hc⟩
  · intro heq
    have hr : combinedReducerEnv ({ st with reducerId := cr }).reducerId
        { { st with reducerId := cr } with isDispatching := true }
        ({ st with reducerId := cr }).currentState (JsAction.obj (some ActionTypesINIT))
        = Except.ok st0 := by
      show combination cr st.currentState initAction = _
      rw [h0]
      simp only [combination, hs, Option.getD_some]
      exact combinationLoop_all_eq st0 initAction cr.finalReducers [] heq hp
    obtain ⟨st', hdisp, hst, _, _, _, _⟩ :=
      dispatch_ok_spec combinedReducerEnv eff fuel { st with reducerId := cr }
        ActionTypesINIT st0 ⟨hw.1, hw.2⟩ hf hr hfuel
    exact ⟨st', hdisp, hst⟩

/-- C4 counterexample: on the concrete store `wStoreABC` (prior state keys
a, b, c) replacing the reducer by the composition `wCrABm` handling only
keys a and b — whose sub-reducers return their slices unchanged for the INIT
action — leaves the very next state with key c still present (the dispatch
succeeded and returned the INIT action, no listener ran): the claimed
immediate reshape does not happen. -/
theorem replaceReducer_keeps_stale_key :
    (replaceReducer combinedReducerEnv (fun _ => []) 1 wStoreABC wCrABm).map
        (fun r => (List.lookup "c" (r.1.currentState.getD []), r.2.1, r.2.2.toOption))
      = some (some 3, [], some initAction) := by
  decide

/-- Witness for `replaceReducer_reshape_amended` at the concrete store
`wStoreABC` and composition `wCrABm`. -/
theorem replaceReducer_reshape_amended_witness :
    (StoreWf wStoreABC ∧ wStoreABC.isDispatching = false ∧
      wStoreABC.currentState = some [("a", 1), ("b", 2), ("c", 3)] ∧
      wCrABm.sanityError = none ∧ (wStoreABC.heap wStoreABC.nextRef).length < 1) ∧
    ((∀ p ∈ wCrABm.finalReducers,
        p.2 (List.lookup p.1 [("a", 1), ("b", 2), ("c", 3)]) initAction
          = List.lookup p.1 [("a", 1), ("b", 2), ("c", 3)]) →
      ∃ st', replaceReducer combinedReducerEnv (fun _ => []) 1 wStoreABC wCrABm
          = some (st', wStoreABC.heap wStoreABC.nextRef, Except.ok initAction) ∧
        st'.currentState = some [("a", 1), ("b", 2), ("c", 3)]) :=
  ⟨⟨⟨by decide, by decide⟩, rfl, rfl, rfl, by decide⟩,
    (replaceReducer_reshape_amended wCrABm wStoreABC [("a", 1), ("b", 2), ("c", 3)]
      (fun _ => []) 1 ⟨by decide, by decide⟩ rfl rfl rfl
      (by
        intro p hp
        rcases List.mem_cons.mp hp with h | h
        · subst h; decide
        · rcases List.mem_cons.mp h with h2 | h2
          · subst h2; decide
          · cases h2)
      (by
        intro p hp
        rcases List.mem_cons.mp hp with h | h
        · subst h; exact ⟨1, rfl⟩
        · rcases List.mem_cons.mp h with h2 | h2
          · subst h2; exact ⟨2, rfl⟩
          · cases h2)
      (by decide)).2⟩

/-- Witness for `unsubscribe_idempotent` at the concrete store `wStoreL`
and listener 1. -/
theorem unsubscribe_idempotent_witness :
    (StoreWf wStoreL ∧ 1 ∈ wStoreL.heap wStoreL.nextRef) ∧
    ∃ pre post, wStoreL.heap wStoreL.nextRef = pre ++ 1 :: post ∧ 1 ∉ pre ∧
      (unsubscribeListener 1 (true, wStoreL)).1 = false ∧
      (unsubscribeListener 1 (true, wStoreL)).2.heap
          (unsubscribeListener 1 (true, wStoreL)).2.nextRef = pre ++ post ∧
      (unsubscribeListener 1 (true, wStoreL)).2.heap wStoreL.currentRef
        = wStoreL.heap wStoreL.currentRef ∧
      (∀ m, m ≠ 1 → (pre ++ post).count m = (wStoreL.heap wStoreL.nextRef).count m) ∧
      ∀ (st2 : StoreCore Nat Unit), unsubscribeListener 1 (false, st2) = (false, st2) :=
  ⟨⟨⟨by decide, by decide⟩, by decide⟩,
    unsubscribe_idempotent wStoreL 1 ⟨by decide, by decide⟩ (by decide)⟩

/-- Witness for `combination_undefined_state_error` at the concrete one-key
composition `wCrBadAction` and the action type `bad`. -/
theorem combination_undefined_state_error_witness :
    (wCrBadAction.sanityError = none ∧
      wCrBadAction.finalReducers = [] ++ ("k", wReducerBadAction) :: [] ∧
      wReducerBadAction (List.lookup "k" [("k", 5)]) (JsAction.obj (some "bad")) = none) ∧
    combination wCrBadAction (some [("k", 5)]) (JsAction.obj (some "bad"))
      = Except.error (getUndefinedStateErrorMessage "k" (JsAction.obj (some "bad"))) :=
  ⟨⟨rfl, rfl, rfl⟩,
    (combination_undefined_state_error wCrBadAction [("k", 5)] "bad" [] [] "k"
      wReducerBadAction rfl rfl (by intro p hp; cases hp) rfl).1⟩

end Redux
